import Mathlib

/-!
Verification development for the tstack bytecode virtual machine.

The Rust sources are shallowly embedded as follows:
* machine integers (`u16`, `u64`, `usize`) become `Nat`, with wrapping
  arithmetic made explicit as `% 2 ^ 64`;
* the operand stack `Vec<u64>` becomes a `List Nat` whose HEAD is the TOP
  of the stack (`Vec::push`/`Vec::pop` act on the vector's tail, which is
  the list's head here);
* fallible operations return `Except BytecodeError _`; a Rust panic
  (index out of bounds, division by zero) is modelled as `Option.none`;
* `&mut self` methods become state-passing functions returning the new
  state;
* `println!` debug output is dropped (no observable stack effect).

The repository preserves two iterations of the engine.  `src/lib.rs`
holds the older iteration (a raw-slice `run` with inline operand-fetch
macros); `src/context.rs`, `src/macros.rs` and `src/errors.rs` hold the
mature iteration, whose dispatch loop itself is exercised by
`tests/main.rs` (`Engine::add_module` / `run(module_id, symbol_id)` /
`maxstack`).  Both are embedded below; the error constructors of the old
iteration (`BadOpCodeError`, `ValueError`, `StackError`) are mapped onto
the corresponding variants of the one error taxonomy in `src/errors.rs`
(`BadOpcode`, `CodeData`, `StackUnderflow`), which is how the mature
iteration names them.
-/

/-! ## Constants from src/bytecode.rs -/

/-- The mask for the group byte (src/bytecode.rs). -/
def bytecode.GROUP_MASK : Nat := 0xFF00

/-- The shift for group bytes (src/bytecode.rs). -/
def bytecode.GROUP_SHIFT : Nat := 8

/-- The mask for the data byte (src/bytecode.rs). -/
def bytecode.DATA_MASK : Nat := 0x00FF

/-- The shift for data bytes (src/bytecode.rs). -/
def bytecode.DATA_SHIFT : Nat := 0

def bytecode.groups.SYSTEM : Nat := 0x00

def bytecode.groups.STACK : Nat := 0x01

def bytecode.groups.JUMP : Nat := 0x02

def bytecode.groups.MATH : Nat := 0x03

def bytecode.groups.FPMATH : Nat := 0x04

def bytecode.groups.FUNCTION : Nat := 0x05

def bytecode.sys.NOP : Nat := 0x00

def bytecode.sys.HALT : Nat := 0x01

def bytecode.sys.PRINT_STACK : Nat := 0x02

def bytecode.sys.PRINT_U64 : Nat := 0x03

def bytecode.sys.PRINT_I64 : Nat := 0x04

def bytecode.sys.PRINT_F32 : Nat := 0x05

def bytecode.sys.PRINT_F64 : Nat := 0x06

def bytecode.sys.BREAKPOINT : Nat := 0x07

def bytecode.stack.CONST_0 : Nat := 0x00

def bytecode.stack.CONST_1 : Nat := 0x01

def bytecode.stack.CONST_2 : Nat := 0x02

def bytecode.stack.CONST_3 : Nat := 0x03

def bytecode.stack.CONST_4 : Nat := 0x04

def bytecode.stack.CONST_8 : Nat := 0x05

def bytecode.stack.CONST_16 : Nat := 0x06

def bytecode.stack.CONST_32 : Nat := 0x07

def bytecode.stack.CONST_64 : Nat := 0x08

def bytecode.stack.CONST_128 : Nat := 0x09

def bytecode.stack.CONST_N1 : Nat := 0x0A

def bytecode.stack.CONST_U16 : Nat := 0x0B

def bytecode.stack.CONST_U32 : Nat := 0x0C

def bytecode.stack.CONST_U64 : Nat := 0x0D

def bytecode.stack.CONST_I16 : Nat := 0x0E

def bytecode.stack.CONST_I32 : Nat := 0x0F

def bytecode.math.ADD : Nat := 0x00

def bytecode.math.ADD_C : Nat := 0x01

def bytecode.math.SUB : Nat := 0x02

def bytecode.math.SUB_C : Nat := 0x03

def bytecode.math.MUL : Nat := 0x04

def bytecode.math.MUL_C : Nat := 0x05

def bytecode.math.DIV : Nat := 0x06

def bytecode.math.DIV_C : Nat := 0x07

/-- Decode the group byte of an instruction word:
`((opcode & GROUP_MASK) >> GROUP_SHIFT)` in `Engine::run` (src/lib.rs). -/
def groupOf (w : Nat) : Nat := (Nat.land w bytecode.GROUP_MASK) >>> bytecode.GROUP_SHIFT

/-- Decode the data byte of an instruction word:
`((opcode & DATA_MASK) >> DATA_SHIFT)` in `Engine::run` (src/lib.rs). -/
def dataOf (w : Nat) : Nat := (Nat.land w bytecode.DATA_MASK) >>> bytecode.DATA_SHIFT

/-! ## Error taxonomy from src/errors.rs -/

/-- Information about a number of required values (src/errors.rs). -/
structure RequiredValues where
  instruction : Nat
  required : Nat
deriving DecidableEq, Repr

/-- The instruction fault error type (src/errors.rs).  The older
iteration in src/lib.rs spells `BadOpcode`/`CodeData`/`StackUnderflow`
as `BadOpCodeError`/`ValueError`/`StackError`; the constructor names of
the mature taxonomy are used for both embeddings. -/
inductive BytecodeError where
  | BadOpcode : Nat → BytecodeError
  | CodeData : RequiredValues → BytecodeError
  | InvalidAddress : Nat → BytecodeError
  | InvalidModule : Nat → BytecodeError
  | InvalidSymbol : Nat → BytecodeError
  | StackOverflow : Nat → BytecodeError
  | StackUnderflow : RequiredValues → BytecodeError
deriving DecidableEq, Repr

/-- `BytecodeError::code_data(opcode, req)` (src/errors.rs). -/
def BytecodeError.code_data (opcode req : Nat) : BytecodeError :=
  BytecodeError.CodeData ⟨opcode, req⟩

/-- `BytecodeError::stack_underflow(opcode, req)` (src/errors.rs). -/
def BytecodeError.stack_underflow (opcode req : Nat) : BytecodeError :=
  BytecodeError.StackUnderflow ⟨opcode, req⟩

/-- `BytecodeError::stack_overflow(opcode)` (src/errors.rs). -/
def BytecodeError.stack_overflow (opcode : Nat) : BytecodeError :=
  BytecodeError.StackOverflow opcode

/-! ## Arithmetic helpers (std::num::Wrapping on u64) -/

/-- `2 ^ 64`, the modulus of all `u64` arithmetic. -/
def U64LIM : Nat := 2 ^ 64

/-- `Wrapping(a) + Wrapping(b)` on `u64`. -/
def wadd (a b : Nat) : Nat := (a + b) % U64LIM

/-- `Wrapping(a) - Wrapping(b)` on `u64`.  For `b < 2 ^ 64` this is
`(a + 2 ^ 64 - b) % 2 ^ 64`, i.e. two's-complement subtraction. -/
def wsub (a b : Nat) : Nat := (a + (U64LIM - b % U64LIM)) % U64LIM

/-- `Wrapping(a) * Wrapping(b)` on `u64`. -/
def wmul (a b : Nat) : Nat := (a * b) % U64LIM

/-- `((c as i16) as i64) as u64`: sign-extend a 16-bit word to 64 bits. -/
def signExt16 (c : Nat) : Nat := if 2 ^ 15 ≤ c then c + (U64LIM - 2 ^ 16) else c

/-- `((v as i32) as i64) as u64`: sign-extend a 32-bit value to 64 bits. -/
def signExt32 (v : Nat) : Nat := if 2 ^ 31 ≤ v then v + (U64LIM - 2 ^ 32) else v

/-! ## The older engine iteration, from src/lib.rs

`Engine { stack: Vec<u64> }` with `run(&mut self, code: &[u16])`.  The
handlers `op_system` / `op_stack` / `op_math` mutate the stack and return
the next instruction index; here they return a `StepResult` carrying the
new index and stack, or a fault together with the stack as the early
`return Err(..)` leaves it.  `Option.none` models a Rust panic. -/

/-- Result of one instruction handler of the old engine: the next value
of `n` plus the mutated stack, or the fault the handler returns early
with (the stack as the aborted handler leaves it). -/
inductive StepResult where
  | ok : Nat → List Nat → StepResult
  | fault : BytecodeError → List Nat → StepResult
deriving DecidableEq, Repr

/-- Result of a whole `run`: normal completion or a propagated fault,
in both cases with the final stack contents. -/
inductive RunResult where
  | done : List Nat → RunResult
  | fault : BytecodeError → List Nat → RunResult
deriving DecidableEq, Repr

/-- `Engine::op_system` (src/lib.rs).  `PRINT_*` pop one value via
`popstack1!` and print it (the printing is dropped); an unknown data
byte is `BadOpcode(code[n])`. -/
def Engine.op_system (n : Nat) (code : List Nat) (value : Nat) (stack : List Nat) :
    Option StepResult :=
  if value = bytecode.sys.NOP then some (.ok (n + 1) stack)
  else if value = bytecode.sys.PRINT_STACK then some (.ok (n + 1) stack)
  else if value = bytecode.sys.PRINT_U64 then
    match stack with
    | [] => some (.fault (.stack_underflow (code.getD n 0) 1) [])
    | _ :: rest => some (.ok (n + 1) rest)
  else if value = bytecode.sys.PRINT_I64 then
    match stack with
    | [] => some (.fault (.stack_underflow (code.getD n 0) 1) [])
    | _ :: rest => some (.ok (n + 1) rest)
  else if value = bytecode.sys.PRINT_F32 then
    match stack with
    | [] => some (.fault (.stack_underflow (code.getD n 0) 1) [])
    | _ :: rest => some (.ok (n + 1) rest)
  else if value = bytecode.sys.PRINT_F64 then
    match stack with
    | [] => some (.fault (.stack_underflow (code.getD n 0) 1) [])
    | _ :: rest => some (.ok (n + 1) rest)
  else some (.fault (.BadOpcode (code.getD n 0)) stack)

/-- `Engine::op_stack` (src/lib.rs).  The `cval_u16!` family of macros
is inlined exactly as in the source: the guard is
`code.len() - n < k` (truncating `usize` subtraction) and the operand
words are then read at `code[n+1] ..`; a read past the end of the slice
is a Rust panic, modelled as `none`. -/
def Engine.op_stack (n : Nat) (code : List Nat) (value : Nat) (stack : List Nat) :
    Option StepResult :=
  if value = bytecode.stack.CONST_0 then some (.ok (n + 1) (0 :: stack))
  else if value = bytecode.stack.CONST_1 then some (.ok (n + 1) (1 :: stack))
  else if value = bytecode.stack.CONST_2 then some (.ok (n + 1) (2 :: stack))
  else if value = bytecode.stack.CONST_3 then some (.ok (n + 1) (3 :: stack))
  else if value = bytecode.stack.CONST_4 then some (.ok (n + 1) (4 :: stack))
  else if value = bytecode.stack.CONST_8 then some (.ok (n + 1) (8 :: stack))
  else if value = bytecode.stack.CONST_16 then some (.ok (n + 1) (16 :: stack))
  else if value = bytecode.stack.CONST_32 then some (.ok (n + 1) (32 :: stack))
  else if value = bytecode.stack.CONST_64 then some (.ok (n + 1) (64 :: stack))
  else if value = bytecode.stack.CONST_128 then some (.ok (n + 1) (128 :: stack))
  else if value = bytecode.stack.CONST_N1 then some (.ok (n + 1) ((U64LIM - 1) :: stack))
  else if value = bytecode.stack.CONST_U16 then
    if code.length - n < 1 then some (.fault (.code_data (code.getD n 0) 2) stack)
    else match code[n + 1]? with
      | none => none
      | some c => some (.ok (n + 2) (c :: stack))
  else if value = bytecode.stack.CONST_U32 then
    if code.length - n < 2 then some (.fault (.code_data (code.getD n 0) 4) stack)
    else match code[n + 1]?, code[n + 2]? with
      | some v1, some v2 => some (.ok (n + 3) ((v1 <<< 16 ||| v2) :: stack))
      | _, _ => none
  else if value = bytecode.stack.CONST_U64 then
    if code.length - n < 4 then some (.fault (.code_data (code.getD n 0) 8) stack)
    else match code[n + 1]?, code[n + 2]?, code[n + 3]?, code[n + 4]? with
      | some v1, some v2, some v3, some v4 =>
          some (.ok (n + 5) ((v1 <<< 48 ||| v2 <<< 32 ||| v3 <<< 16 ||| v4) :: stack))
      | _, _, _, _ => none
  else if value = bytecode.stack.CONST_I16 then
    if code.length - n < 1 then some (.fault (.code_data (code.getD n 0) 2) stack)
    else match code[n + 1]? with
      | none => none
      | some c => some (.ok (n + 2) (signExt16 c :: stack))
  else if value = bytecode.stack.CONST_I32 then
    if code.length - n < 2 then some (.fault (.code_data (code.getD n 0) 4) stack)
    else match code[n + 1]?, code[n + 2]? with
      | some v1, some v2 => some (.ok (n + 3) (signExt32 (v1 <<< 16 ||| v2) :: stack))
      | _, _ => none
  else some (.fault (.BadOpcode (code.getD n 0)) stack)

/-- `Engine::op_math` (src/lib.rs).  `popstack2!` pops the topmost value
as `v1` and the next as `v2`, reporting `StackUnderflow{opcode, 2}` if
either pop finds the stack empty (the first pop is not undone).
Division is Rust `/` on `u64`, which panics on a zero divisor
(modelled as `none`). -/
def Engine.op_math (n : Nat) (code : List Nat) (value : Nat) (stack : List Nat) :
    Option StepResult :=
  if value = bytecode.math.ADD then
    match stack with
    | v1 :: v2 :: rest => some (.ok (n + 1) (wadd v1 v2 :: rest))
    | _ => some (.fault (.stack_underflow (code.getD n 0) 2) [])
  else if value = bytecode.math.ADD_C then
    if code.length - n < 1 then some (.fault (.code_data (code.getD n 0) 2) stack)
    else match code[n + 1]? with
      | none => none
      | some c =>
        match stack with
        | [] => some (.fault (.stack_underflow (code.getD n 0) 1) [])
        | v :: rest => some (.ok (n + 2) (wadd c v :: rest))
  else if value = bytecode.math.SUB then
    match stack with
    | v1 :: v2 :: rest => some (.ok (n + 1) (wsub v1 v2 :: rest))
    | _ => some (.fault (.stack_underflow (code.getD n 0) 2) [])
  else if value = bytecode.math.SUB_C then
    if code.length - n < 1 then some (.fault (.code_data (code.getD n 0) 2) stack)
    else match code[n + 1]? with
      | none => none
      | some c =>
        match stack with
        | [] => some (.fault (.stack_underflow (code.getD n 0) 1) [])
        | v :: rest => some (.ok (n + 2) (wsub v c :: rest))
  else if value = bytecode.math.MUL then
    match stack with
    | v1 :: v2 :: rest => some (.ok (n + 1) (wmul v1 v2 :: rest))
    | _ => some (.fault (.stack_underflow (code.getD n 0) 2) [])
  else if value = bytecode.math.MUL_C then
    if code.length - n < 1 then some (.fault (.code_data (code.getD n 0) 2) stack)
    else match code[n + 1]? with
      | none => none
      | some c =>
        match stack with
        | [] => some (.fault (.stack_underflow (code.getD n 0) 1) [])
        | v :: rest => some (.ok (n + 2) (wmul v c :: rest))
  else if value = bytecode.math.DIV then
    match stack with
    | v1 :: v2 :: rest =>
        if v2 = 0 then none else some (.ok (n + 1) ((v1 / v2) :: rest))
    | _ => some (.fault (.stack_underflow (code.getD n 0) 2) [])
  else if value = bytecode.math.DIV_C then
    if code.length - n < 1 then some (.fault (.code_data (code.getD n 0) 2) stack)
    else match code[n + 1]? with
      | none => none
      | some c =>
        match stack with
        | [] => some (.fault (.stack_underflow (code.getD n 0) 1) [])
        | v :: rest => if c = 0 then none else some (.ok (n + 2) ((v / c) :: rest))
  else some (.fault (.BadOpcode (code.getD n 0)) stack)

/-- The `while n < codelen` dispatch loop of `Engine::run` (src/lib.rs),
with an explicit fuel.  Every handler advances `n` by at least one, so
`code.length + 1` units of fuel always suffice; the fuel-exhaustion
branch (`none`) is unreachable from `Engine.run`. -/
def Engine.runAux (code : List Nat) (n : Nat) (stack : List Nat) : Nat → Option RunResult
  | 0 => none
  | fuel + 1 =>
    if n < code.length then
      let opcode := code.getD n 0
      let step :=
        if groupOf opcode = bytecode.groups.SYSTEM then
          Engine.op_system n code (dataOf opcode) stack
        else if groupOf opcode = bytecode.groups.STACK then
          Engine.op_stack n code (dataOf opcode) stack
        else if groupOf opcode = bytecode.groups.MATH then
          Engine.op_math n code (dataOf opcode) stack
        else some (.fault (.BadOpcode opcode) stack)
      match step with
      | none => none
      | some (.fault e s) => some (.fault e s)
      | some (.ok n2 s2) => Engine.runAux code n2 s2 fuel
    else some (.done stack)

/-- `Engine::run(code)` of src/lib.rs, starting from a given operand
stack (the engine's `stack` field). -/
def Engine.run (code : List Nat) (stack : List Nat) : Option RunResult :=
  Engine.runAux code 0 stack (code.length + 1)

/-- Does the old engine's dispatch have a handler for this instruction
word?  Mirrors the `match` arms of `Engine::run` / `op_system` /
`op_stack` / `op_math` in src/lib.rs: groups SYSTEM, STACK and MATH,
with data bytes NOP and PRINT_* for SYSTEM (HALT has no arm),
CONST_0 .. CONST_I32 (`0x00`-`0x0F`) for STACK and
ADD .. DIV_C (`0x00`-`0x07`) for MATH. -/
def handledWord (w : Nat) : Bool :=
  if groupOf w = bytecode.groups.SYSTEM then
    decide (dataOf w = bytecode.sys.NOP ∨ dataOf w = bytecode.sys.PRINT_STACK ∨
      dataOf w = bytecode.sys.PRINT_U64 ∨ dataOf w = bytecode.sys.PRINT_I64 ∨
      dataOf w = bytecode.sys.PRINT_F32 ∨ dataOf w = bytecode.sys.PRINT_F64)
  else if groupOf w = bytecode.groups.STACK then decide (dataOf w < 16)
  else if groupOf w = bytecode.groups.MATH then decide (dataOf w < 8)
  else false

/-! ## The execution context, from src/context.rs

`Context { module: Rc<Module>, offset: usize, current: u16 }`.  Of the
`Module` fields only `bytecode: Vec<u16>` is touched by any `Context`
operation, so the shared module reference is embedded as that word list.
`&mut self` methods return the updated context alongside their value. -/

structure Context where
  module : List Nat
  offset : Nat
  current : Nat
deriving DecidableEq, Repr

/-- `Context::new(module, offset)` (src/context.rs): rejects
`offset >= module.bytecode.len()` with `InvalidAddress(offset)`,
otherwise caches `current = bytecode[offset]`. -/
def Context.new (bytecode : List Nat) (offset : Nat) : Except BytecodeError Context :=
  if bytecode.length ≤ offset then .error (.InvalidAddress offset)
  else .ok ⟨bytecode, offset, bytecode.getD offset 0⟩

/-- `Context::opcode()` (src/context.rs): the cached `current` word. -/
def Context.opcode (c : Context) : Nat := c.current

/-- `Context::has_next()` (src/context.rs). -/
def Context.has_next (c : Context) : Bool := c.offset < c.module.length

/-- `Context::next()` (src/context.rs): `None` when the stream is
exhausted, otherwise the word at `offset`, with `offset` incremented.
Note the source does not assign `current`. -/
def Context.next (c : Context) : Option (Nat × Context) :=
  if !c.has_next then none
  else some (c.module.getD c.offset 0, { c with offset := c.offset + 1 })

/-- `Context::cval_u16()` (src/context.rs): one trailing operand word,
or `CodeData{current, 1}` when none remains. -/
def Context.cval_u16 (c : Context) : Except BytecodeError (Nat × Context) :=
  if c.module.length - c.offset < 1 then .error (.code_data c.current 1)
  else .ok (c.module.getD c.offset 0, { c with offset := c.offset + 1 })

/-- `Context::cval_u16_2()` (src/context.rs): two trailing operand
words, or `CodeData{current, 2}`. -/
def Context.cval_u16_2 (c : Context) : Except BytecodeError ((Nat × Nat) × Context) :=
  if c.module.length - c.offset < 2 then .error (.code_data c.current 2)
  else .ok ((c.module.getD c.offset 0, c.module.getD (c.offset + 1) 0),
            { c with offset := c.offset + 2 })

/-- `Context::cval_u16_4()` (src/context.rs): four trailing operand
words, or `CodeData{current, 4}`. -/
def Context.cval_u16_4 (c : Context) :
    Except BytecodeError ((Nat × Nat × Nat × Nat) × Context) :=
  if c.module.length - c.offset < 4 then .error (.code_data c.current 4)
  else .ok ((c.module.getD c.offset 0, c.module.getD (c.offset + 1) 0,
             c.module.getD (c.offset + 2) 0, c.module.getD (c.offset + 3) 0),
            { c with offset := c.offset + 4 })

/-- `Context::cval_u32()` (src/context.rs): `(v1 << 16) | v2`. -/
def Context.cval_u32 (c : Context) : Except BytecodeError (Nat × Context) :=
  match c.cval_u16_2 with
  | .error e => .error e
  | .ok ((v1, v2), c2) => .ok ((v1 <<< 16 ||| v2), c2)

/-- `Context::cval_u64()` (src/context.rs):
`(v1 << 48) | (v2 << 32) | (v3 << 16) | v4`. -/
def Context.cval_u64 (c : Context) : Except BytecodeError (Nat × Context) :=
  match c.cval_u16_4 with
  | .error e => .error e
  | .ok ((v1, v2, v3, v4), c2) => .ok ((v1 <<< 48 ||| v2 <<< 32 ||| v3 <<< 16 ||| v4), c2)

/-! ## Stack macros of the mature iteration, from src/macros.rs -/

/-- `checkstack!` (src/macros.rs): fail with `StackOverflow(opcode)`
unless at least `count` free slots remain below `maxstack`.  The
source's truncating `usize` subtraction `maxstack - stack.len()` is
`Nat` subtraction here.  (The macro also passes a mnemonic `$name`,
which the `BytecodeError::stack_overflow` constructor in src/errors.rs
does not take; it is dropped.) -/
def checkstack (maxstack opcode count : Nat) (stack : List Nat) :
    Except BytecodeError Unit :=
  if maxstack - stack.length < count then .error (.stack_overflow opcode)
  else .ok ()

/-- `pushstack!` with one value (src/macros.rs): `checkstack!` for
exactly one word, then push. -/
def pushstack1 (maxstack opcode v : Nat) (stack : List Nat) :
    Except BytecodeError (List Nat) :=
  match checkstack maxstack opcode 1 stack with
  | .error e => .error e
  | .ok _ => .ok (v :: stack)

/-- `pushstack!` with two values (src/macros.rs): `checkstack!` for
exactly two words, then push `v1` then `v2` (so `v2` ends on top). -/
def pushstack2 (maxstack opcode v1 v2 : Nat) (stack : List Nat) :
    Except BytecodeError (List Nat) :=
  match checkstack maxstack opcode 2 stack with
  | .error e => .error e
  | .ok _ => .ok (v2 :: v1 :: stack)

/-! ## The mature engine dispatch

`tests/main.rs` and `src/main.rs` drive an `Engine` with `add_module`,
`maxstack` and `run(module_id, symbol_id)` whose dispatch code is not
under src/ — only its building blocks are (`Context` in src/context.rs,
the stack macros in src/macros.rs, the errors in src/errors.rs). -/

/-- Result of one mature-engine handler: the advanced context and stack,
or a fault with the stack as the aborted handler leaves it. -/
inductive MResult where
  | ok : Context → List Nat → MResult
  | fault : BytecodeError → List Nat → MResult
deriving DecidableEq, Repr

/-- Modelled from the spec: push one value through `pushstack!`
(src/macros.rs), keeping the untouched stack on a `StackOverflow` early
return. -/
def mpush (maxstack w : Nat) (ctx : Context) (stack : List Nat) (v : Nat) : MResult :=
  match pushstack1 maxstack w v stack with
  | .error e => .fault e stack
  | .ok s => .ok ctx s

/-- Modelled from the spec: the mature engine's STACK-group handler,
which is not under src/ (spec sec. 4.4: constants "push a fixed literal
or a decoded immediate ... each is one stack push, capacity-checked
first"), composed from the real `Context::cval_*` operand fetches
(src/context.rs) and the real `pushstack!` capacity check
(src/macros.rs).  Only the constant family `CONST_0 .. CONST_I32`
needed by the claims is modelled; other data bytes fall through to
`BadOpcode` here. -/
def mOpStack (maxstack w : Nat) (ctx : Context) (stack : List Nat) (value : Nat) :
    MResult :=
  if value = bytecode.stack.CONST_0 then mpush maxstack w ctx stack 0
  else if value = bytecode.stack.CONST_1 then mpush maxstack w ctx stack 1
  else if value = bytecode.stack.CONST_2 then mpush maxstack w ctx stack 2
  else if value = bytecode.stack.CONST_3 then mpush maxstack w ctx stack 3
  else if value = bytecode.stack.CONST_4 then mpush maxstack w ctx stack 4
  else if value = bytecode.stack.CONST_8 then mpush maxstack w ctx stack 8
  else if value = bytecode.stack.CONST_16 then mpush maxstack w ctx stack 16
  else if value = bytecode.stack.CONST_32 then mpush maxstack w ctx stack 32
  else if value = bytecode.stack.CONST_64 then mpush maxstack w ctx stack 64
  else if value = bytecode.stack.CONST_128 then mpush maxstack w ctx stack 128
  else if value = bytecode.stack.CONST_N1 then mpush maxstack w ctx stack (U64LIM - 1)
  else if value = bytecode.stack.CONST_U16 then
    match ctx.cval_u16 with
    | .error e => .fault e stack
    | .ok (c, ctx2) => mpush maxstack w ctx2 stack c
  else if value = bytecode.stack.CONST_U32 then
    match ctx.cval_u32 with
    | .error e => .fault e stack
    | .ok (c, ctx2) => mpush maxstack w ctx2 stack c
  else if value = bytecode.stack.CONST_U64 then
    match ctx.cval_u64 with
    | .error e => .fault e stack
    | .ok (c, ctx2) => mpush maxstack w ctx2 stack c
  else if value = bytecode.stack.CONST_I16 then
    match ctx.cval_u16 with
    | .error e => .fault e stack
    | .ok (c, ctx2) => mpush maxstack w ctx2 stack (signExt16 c)
  else if value = bytecode.stack.CONST_I32 then
    match ctx.cval_u32 with
    | .error e => .fault e stack
    | .ok (c, ctx2) => mpush maxstack w ctx2 stack (signExt32 c)
  else .fault (.BadOpcode w) stack

/-- Modelled from the spec: the mature engine's fetch-decode-execute
loop, which is not under src/ (spec sec. 4.4: "while the active Context
has a next opcode, fetch it, split into group/data, branch to the
handler"), driven through the real `Context::next` (src/context.rs).
Fuel-recursive; every step advances the context offset by at least one,
so `bytecode.length + 1` units suffice and the `none` branch is
unreachable from `mrun`.  Of the SYSTEM group only `NOP` is modelled. -/
def mrunAux (maxstack : Nat) (ctx : Context) (stack : List Nat) : Nat → Option RunResult
  | 0 => none
  | fuel + 1 =>
    match ctx.next with
    | none => some (.done stack)
    | some (w, ctx2) =>
      let step :=
        if groupOf w = bytecode.groups.SYSTEM then
          if dataOf w = bytecode.sys.NOP then MResult.ok ctx2 stack
          else MResult.fault (.BadOpcode w) stack
        else if groupOf w = bytecode.groups.STACK then
          mOpStack maxstack w ctx2 stack (dataOf w)
        else MResult.fault (.BadOpcode w) stack
      match step with
      | .fault e s => some (.fault e s)
      | .ok ctx3 s => mrunAux maxstack ctx3 s fuel

/-- Modelled from the spec: run a module's bytecode from offset 0 with
the given stack limit — the `engine.run(0, 0)` entry of tests/main.rs,
whose engine body is not under src/, composed from the real
`Context::new` (src/context.rs) and the loop above. -/
def mrun (byc : List Nat) (maxstack : Nat) (stack : List Nat) : Option RunResult :=
  match Context.new byc 0 with
  | .error e => some (.fault e stack)
  | .ok ctx => mrunAux maxstack ctx stack (byc.length + 1)

/-! ## Supporting lemmas -/

/-- A successful `cval_u16` reads the word at the entry offset — strictly
after the already-fetched opcode word — and advances past it. -/
theorem cval_u16_reads_after (c : Context) (v : Nat) (c2 : Context)
    (h : c.cval_u16 = .ok (v, c2)) :
    v = c.module.getD c.offset 0 ∧ c2.offset = c.offset + 1 ∧
      c.offset < c.module.length := by
  unfold Context.cval_u16 at h
  split at h
  · exact absurd h (by simp)
  · rename_i hc
    obtain ⟨rfl, rfl⟩ : v = c.module.getD c.offset 0 ∧
        c2 = { c with offset := c.offset + 1 } := by
      injection h with h2
      injection h2 with h3 h4
      exact ⟨h3.symm, h4.symm⟩
    exact ⟨rfl, rfl, by omega⟩

/-! ## The claims -/

/-- C9: executing `DIV` with a zero second-popped divisor, or `DIV_C`
with a zero immediate constant, returns no `BytecodeError` — the Rust
`/` on `u64` panics instead (modelled as `none`), so `run` is not total
over all stacks; no division-by-zero variant exists in `BytecodeError`. -/
theorem c9_div_zero_panics :
    Engine.run [0x0306] [5, 0] = none ∧ Engine.run [0x0307, 0] [7] = none :=
  ⟨rfl, rfl⟩

/-- C10: a two-operand math instruction on a stack holding exactly one
value returns `StackUnderflow{opcode, 2}`, but the single value has
already been popped: the surviving stack is empty, not unchanged. -/
theorem c10_underflow_not_atomic (v : Nat) :
    Engine.run [0x0300] [v] = some (.fault (.StackUnderflow ⟨0x0300, 2⟩) []) ∧
    Engine.run [0x0302] [v] = some (.fault (.StackUnderflow ⟨0x0302, 2⟩) []) ∧
    Engine.run [0x0304] [v] = some (.fault (.StackUnderflow ⟨0x0304, 2⟩) []) ∧
    Engine.run [0x0306] [v] = some (.fault (.StackUnderflow ⟨0x0306, 2⟩) []) :=
  ⟨rfl, rfl, rfl, rfl⟩

/-- C7: `Context::next()` does not update `current`, so after a second
successful `next()` that returned `7`, `opcode()` still returns the word
`5` cached at construction — the code contradicts the contract that
`opcode()` is the currently fetched word (the double-read idempotence
half holds trivially, `opcode` being a pure read). -/
theorem c7_stale_opcode_eval :
    Context.new [5, 7] 0 = .ok ⟨[5, 7], 0, 5⟩ ∧
    (Context.mk [5, 7] 0 5).next = some (5, ⟨[5, 7], 1, 5⟩) ∧
    (Context.mk [5, 7] 1 5).next = some (7, ⟨[5, 7], 2, 5⟩) ∧
    (Context.mk [5, 7] 2 5).opcode = 5 ∧ (5 : Nat) ≠ 7 :=
  ⟨rfl, rfl, rfl, rfl, by decide⟩

/-- C1: the `cval_*` word counts are right (`CONST_U16` with no trailing
word faults with `CodeData{required: 1}`, `CONST_U32` with one word with
`CodeData{required: 2}`), but the opcode carried by the fault is the
Context's stale `current` word: with bytecode `[NOP, CONST_U16]` the
fault reports opcode `0x0000` instead of the faulting `0x010B`. -/
theorem c1_codedata_opcode_eval :
    mrun [0x010B] 10 [] = some (.fault (.CodeData ⟨0x010B, 1⟩) []) ∧
    mrun [0x010C, 0x1010] 10 [] = some (.fault (.CodeData ⟨0x010C, 2⟩) []) ∧
    mrun [0x0000, 0x010B] 10 [] = some (.fault (.CodeData ⟨0x0000, 1⟩) []) ∧
    (0x0000 : Nat) ≠ 0x010B :=
  ⟨rfl, rfl, rfl, by decide⟩

/-- C3: for all `a, b` in `u64`, `ADD` on a stack topped by `a` and `b`
succeeds without any fault and pushes `(a + b) mod 2 ^ 64`; integer
arithmetic never faults on overflow. -/
theorem c3_add_wraps (a b : Nat) (ha : a < 2 ^ 64) (hb : b < 2 ^ 64) (s : List Nat) :
    Engine.run [0x0300] (a :: b :: s) = some (.done (((a + b) % 2 ^ 64) :: s)) :=
  rfl

/-- Witness for C3, at the claim's own overflowing instance
`a = 2 ^ 64 - 1`, `b = 1`, whose wrapped sum is `0`. -/
theorem c3_add_wraps_witness :
    Engine.run [0x0300] [2 ^ 64 - 1, 1] = some (.done [0]) := by
  have h := c3_add_wraps (2 ^ 64 - 1) 1 (by norm_num) (by norm_num) []
  have e : ((2 ^ 64 - 1 + 1) % 2 ^ 64 : Nat) = 0 := by norm_num
  rw [e] at h
  exact h

/-- Counterexample to C2 as stated: with first pop `a = 2` and second
pop `b = 8`, the claim predicts `SUB` pushes `(b - a) mod 2 ^ 64 = 6`
and `DIV` pushes `b / a = 4`; the code pushes `a - b = 2 ^ 64 - 6` and
`a / b = 0`. -/
theorem c2_sub_div_cex :
    Engine.run [0x0302] [2, 8] = some (.done [0xFFFFFFFFFFFFFFFA]) ∧
    Engine.run [0x0306] [2, 8] = some (.done [0]) ∧
    (0xFFFFFFFFFFFFFFFA : Nat) ≠ (8 - 2) % 2 ^ 64 ∧ (0 : Nat) ≠ 8 / 2 :=
  ⟨rfl, rfl, by decide, by decide⟩

/-- C2 (amended): with first pop `a` and second pop `b`, `SUB` pushes
`(a - b) mod 2 ^ 64` and `DIV` pushes `a / b` — in the stack-effect
annotations `[a,b] -> [b-a]` and `[a,b] -> [b/a]` the rightmost element
is the top of the stack, so `b` there is the first pop. -/
theorem c2_sub_div_order (a b : Nat) (ha : a < 2 ^ 64) (hb : b < 2 ^ 64) (s : List Nat) :
    Engine.run [0x0302] (a :: b :: s) =
      some (.done (((a + (2 ^ 64 - b)) % 2 ^ 64) :: s)) ∧
    (b ≠ 0 → Engine.run [0x0306] (a :: b :: s) = some (.done ((a / b) :: s))) := by
  constructor
  · have h1 : wsub a b = (a + (2 ^ 64 - b)) % 2 ^ 64 := by
      unfold wsub U64LIM
      rw [Nat.mod_eq_of_lt hb]
    have hr : Engine.run [0x0302] (a :: b :: s) = some (.done (wsub a b :: s)) := rfl
    rw [hr, h1]
  · intro hb0
    obtain ⟨b2, rfl⟩ : ∃ b2, b = b2 + 1 := ⟨b - 1, by omega⟩
    rfl

/-- Witness for C2 (amended) at `a = 9`, `b = 4`: `SUB` pushes `5`,
`DIV` pushes `2`. -/
theorem c2_sub_div_order_witness :
    Engine.run [0x0302] [9, 4] = some (.done [5]) ∧
    Engine.run [0x0306] [9, 4] = some (.done [2]) := by
  have h := c2_sub_div_order 9 4 (by norm_num) (by norm_num) []
  have e : ((9 + (2 ^ 64 - 4)) % 2 ^ 64 : Nat) = 5 := by norm_num
  refine ⟨?_, h.2 (by norm_num)⟩
  have h1 := h.1
  rw [e] at h1
  exact h1

/-- Inversion for a successful `cval_u16_2`: it advances exactly two
words within bounds and leaves the module untouched. -/
theorem cval_u16_2_ok_inv (c : Context) (v : Nat × Nat) (c2 : Context)
    (h : c.cval_u16_2 = .ok (v, c2)) :
    c2.module = c.module ∧ c2.offset = c.offset + 2 ∧
      c.offset + 2 ≤ c.module.length := by
  unfold Context.cval_u16_2 at h
  split at h
  · exact absurd h (by simp)
  · rename_i hc
    injection h with h2
    injection h2 with hv hc2
    rw [← hc2]
    exact ⟨rfl, rfl, by omega⟩

/-- Inversion for a successful `cval_u16_4`: it advances exactly four
words within bounds and leaves the module untouched. -/
theorem cval_u16_4_ok_inv (c : Context) (v : Nat × Nat × Nat × Nat) (c2 : Context)
    (h : c.cval_u16_4 = .ok (v, c2)) :
    c2.module = c.module ∧ c2.offset = c.offset + 4 ∧
      c.offset + 4 ≤ c.module.length := by
  unfold Context.cval_u16_4 at h
  split at h
  · exact absurd h (by simp)
  · rename_i hc
    injection h with h2
    injection h2 with hv hc2
    rw [← hc2]
    exact ⟨rfl, rfl, by omega⟩

/-- C4: a push through `pushstack!`/`checkstack!` is capacity-checked
for the exact number of words about to be added and fails with
`StackOverflow` — leaving the stack untouched — when it would exceed
`maxstack`; concretely, with `maxstack = 2`, three consecutive `CONST_0`
instructions fault on the third with `StackOverflow`, the stack still
holding the two pushed zeros. -/
theorem c4_capacity_checked :
    (∀ ms opc v (s : List Nat), ms ≤ s.length →
        pushstack1 ms opc v s = .error (.StackOverflow opc)) ∧
    (∀ ms opc v (s : List Nat), s.length < ms →
        pushstack1 ms opc v s = .ok (v :: s)) ∧
    (∀ ms opc v1 v2 (s : List Nat), ms - s.length < 2 →
        pushstack2 ms opc v1 v2 s = .error (.StackOverflow opc)) ∧
    (∀ ms opc v1 v2 (s : List Nat), s.length + 2 ≤ ms →
        pushstack2 ms opc v1 v2 s = .ok (v2 :: v1 :: s)) ∧
    mrun [0x0100, 0x0100, 0x0100] 2 [] = some (.fault (.StackOverflow 0x0100) [0, 0]) := by
  refine ⟨?_, ?_, ?_, ?_, rfl⟩
  · intro ms opc v s h
    unfold pushstack1 checkstack
    rw [if_pos (by omega)]
    rfl
  · intro ms opc v s h
    unfold pushstack1 checkstack
    rw [if_neg (by omega)]
  · intro ms opc v1 v2 s h
    unfold pushstack2 checkstack
    rw [if_pos (by omega)]
    rfl
  · intro ms opc v1 v2 s h
    unfold pushstack2 checkstack
    rw [if_neg (by omega)]

/-- Witness for C4: the four checked-push facts at concrete inputs. -/
theorem c4_capacity_checked_witness :
    pushstack1 2 0x0100 0 [0, 0] = .error (.StackOverflow 0x0100) ∧
    pushstack1 2 0x0100 0 [0] = .ok [0, 0] ∧
    pushstack2 3 0x0100 1 2 [0, 0] = .error (.StackOverflow 0x0100) ∧
    pushstack2 4 0x0100 1 2 [0, 0] = .ok [2, 1, 0, 0] :=
  ⟨c4_capacity_checked.1 2 0x0100 0 [0, 0] (by decide),
   c4_capacity_checked.2.1 2 0x0100 0 [0] (by decide),
   c4_capacity_checked.2.2.1 3 0x0100 1 2 [0, 0] (by decide),
   c4_capacity_checked.2.2.2.1 4 0x0100 1 2 [0, 0] (by decide)⟩

/-- C5: a 64-bit immediate is assembled most-significant-word-first as
`(w1 << 48) | (w2 << 32) | (w3 << 16) | w4`, a 32-bit immediate as
`(hi << 16) | lo`, and `CONST_U64` with immediate words
`0x1234, 0x5678, 0x9ABC, 0xDEF0` pushes exactly `0x123456789ABCDEF0`
(shown for both engine iterations). -/
theorem c5_immediate_assembly :
    (∀ (op cur w1 w2 w3 w4 : Nat) (post : List Nat),
        Context.cval_u64 ⟨op :: w1 :: w2 :: w3 :: w4 :: post, 1, cur⟩ =
          .ok (w1 <<< 48 ||| w2 <<< 32 ||| w3 <<< 16 ||| w4,
               ⟨op :: w1 :: w2 :: w3 :: w4 :: post, 5, cur⟩)) ∧
    (∀ (op cur hi lo : Nat) (post : List Nat),
        Context.cval_u32 ⟨op :: hi :: lo :: post, 1, cur⟩ =
          .ok (hi <<< 16 ||| lo, ⟨op :: hi :: lo :: post, 3, cur⟩)) ∧
    mrun [0x010D, 0x1234, 0x5678, 0x9ABC, 0xDEF0] 10 [] =
      some (.done [0x123456789ABCDEF0]) ∧
    Engine.run [0x010D, 0x1234, 0x5678, 0x9ABC, 0xDEF0] [] =
      some (.done [0x123456789ABCDEF0]) := by
  refine ⟨?_, ?_, rfl, rfl⟩
  · intro op cur w1 w2 w3 w4 post
    unfold Context.cval_u64 Context.cval_u16_4
    rw [if_neg (by simp)]
    rfl
  · intro op cur hi lo post
    unfold Context.cval_u32 Context.cval_u16_2
    rw [if_neg (by simp)]
    rfl

/-- Counterexample to C6 as stated: construction at an offset equal to
the bytecode length (the exhausted-stream case) is NOT permitted —
`Context::new` rejects it with `InvalidAddress`. -/
theorem c6_construction_at_length_cex :
    Context.new [0] 1 = .error (.InvalidAddress 1) ∧ ([0] : List Nat).length = 1 :=
  ⟨rfl, rfl⟩

/-- C6 (amended): constructing a Context at any offset at or beyond the
module's bytecode length — including exactly at the length — fails with
`InvalidAddress(offset)` without producing a context; at construction
the offset is a valid index (the offset-equals-length state arises only
through fetches, never at construction), and after every successful
bounds-checked fetch the offset is a valid index or equal to the
length. -/
theorem c6_offset_invariant :
    (∀ (m : List Nat) (off : Nat), m.length ≤ off →
        Context.new m off = .error (.InvalidAddress off)) ∧
    (∀ (m : List Nat) (off : Nat), off < m.length →
        Context.new m off = .ok ⟨m, off, m.getD off 0⟩) ∧
    (∀ (c : Context) (w : Nat) (c2 : Context), c.next = some (w, c2) →
        c.offset < c.module.length ∧ w = c.module.getD c.offset 0 ∧
          c2 = ⟨c.module, c.offset + 1, c.current⟩) ∧
    (∀ (c : Context) (v : Nat) (c2 : Context), c.cval_u16 = .ok (v, c2) →
        c2.module = c.module ∧ c2.offset = c.offset + 1 ∧
          c2.offset ≤ c2.module.length) ∧
    (∀ (c : Context) (v : Nat × Nat) (c2 : Context), c.cval_u16_2 = .ok (v, c2) →
        c2.module = c.module ∧ c2.offset = c.offset + 2 ∧
          c2.offset ≤ c2.module.length) ∧
    (∀ (c : Context) (v : Nat × Nat × Nat × Nat) (c2 : Context),
        c.cval_u16_4 = .ok (v, c2) →
        c2.module = c.module ∧ c2.offset = c.offset + 4 ∧
          c2.offset ≤ c2.module.length) ∧
    (∀ (c : Context) (v : Nat) (c2 : Context), c.cval_u32 = .ok (v, c2) →
        c2.module = c.module ∧ c2.offset = c.offset + 2 ∧
          c2.offset ≤ c2.module.length) ∧
    (∀ (c : Context) (v : Nat) (c2 : Context), c.cval_u64 = .ok (v, c2) →
        c2.module = c.module ∧ c2.offset = c.offset + 4 ∧
          c2.offset ≤ c2.module.length) := by
  refine ⟨?_, ?_, ?_, ?_, ?_, ?_, ?_, ?_⟩
  · intro m off h
    unfold Context.new
    rw [if_pos h]
  · intro m off h
    unfold Context.new
    rw [if_neg (by omega)]
  · intro c w c2 h
    unfold Context.next Context.has_next at h
    by_cases hb : c.offset < c.module.length
    · rw [if_neg (by simp [hb])] at h
      injection h with h2
      injection h2 with hw hc2
      exact ⟨hb, hw.symm, hc2.symm⟩
    · rw [if_pos (by simp [hb])] at h
      exact absurd h (by simp)
  · intro c v c2 h
    obtain ⟨hv, h1, hlt⟩ := cval_u16_reads_after c v c2 h
    have hm : c2.module = c.module := by
      unfold Context.cval_u16 at h
      split at h
      · exact absurd h (by simp)
      · injection h with h2
        injection h2 with hv2 hc2
        rw [← hc2]
    rw [hm, h1]
    exact ⟨rfl, rfl, by omega⟩
  · intro c v c2 h
    obtain ⟨hm, h2, hle⟩ := cval_u16_2_ok_inv c v c2 h
    rw [hm, h2]
    exact ⟨rfl, rfl, by omega⟩
  · intro c v c2 h
    obtain ⟨hm, h2, hle⟩ := cval_u16_4_ok_inv c v c2 h
    rw [hm, h2]
    exact ⟨rfl, rfl, by omega⟩
  · intro c v c2 h
    unfold Context.cval_u32 at h
    split at h
    · exact absurd h (by simp)
    · rename_i v1 v2 c3 heq
      injection h with h2
      injection h2 with hv hc2
      obtain ⟨hm, h2, hle⟩ := cval_u16_2_ok_inv c (v1, v2) c3 heq
      rw [← hc2, hm, h2]
      exact ⟨rfl, rfl, by omega⟩
  · intro c v c2 h
    unfold Context.cval_u64 at h
    split at h
    · exact absurd h (by simp)
    · rename_i v1 v2 v3 v4 c3 heq
      injection h with h2
      injection h2 with hv hc2
      obtain ⟨hm, h2, hle⟩ := cval_u16_4_ok_inv c (v1, v2, v3, v4) c3 heq
      rw [← hc2, hm, h2]
      exact ⟨rfl, rfl, by omega⟩

/-- Witness for C6 (amended): each fetch primitive instantiated on a
concrete context, each hypothesis discharged by evaluation. -/
theorem c6_offset_invariant_witness :
    Context.new ([] : List Nat) 0 = .error (.InvalidAddress 0) ∧
    Context.new [7] 0 = .ok ⟨[7], 0, 7⟩ ∧
    ((0 : Nat) < 1 ∧ (7 : Nat) = 7 ∧
      Context.mk [7] 1 7 = ⟨[7], 0 + 1, 7⟩) ∧
    ((Context.mk [3] 1 9).module = [3] ∧ (Context.mk [3] 1 9).offset = 0 + 1 ∧
      (Context.mk [3] 1 9).offset ≤ (Context.mk [3] 1 9).module.length) ∧
    ((Context.mk [3, 4] 2 9).module = [3, 4] ∧
      (Context.mk [3, 4] 2 9).offset = 0 + 2 ∧
      (Context.mk [3, 4] 2 9).offset ≤ (Context.mk [3, 4] 2 9).module.length) ∧
    ((Context.mk [1, 2, 3, 4] 4 9).module = [1, 2, 3, 4] ∧
      (Context.mk [1, 2, 3, 4] 4 9).offset = 0 + 4 ∧
      (Context.mk [1, 2, 3, 4] 4 9).offset ≤
        (Context.mk [1, 2, 3, 4] 4 9).module.length) ∧
    ((Context.mk [3, 4] 2 8).module = [3, 4] ∧
      (Context.mk [3, 4] 2 8).offset = 0 + 2 ∧
      (Context.mk [3, 4] 2 8).offset ≤ (Context.mk [3, 4] 2 8).module.length) ∧
    ((Context.mk [1, 2, 3, 4] 4 8).module = [1, 2, 3, 4] ∧
      (Context.mk [1, 2, 3, 4] 4 8).offset = 0 + 4 ∧
      (Context.mk [1, 2, 3, 4] 4 8).offset ≤
        (Context.mk [1, 2, 3, 4] 4 8).module.length) :=
  ⟨c6_offset_invariant.1 [] 0 (by decide),
   c6_offset_invariant.2.1 [7] 0 (by decide),
   c6_offset_invariant.2.2.1 ⟨[7], 0, 7⟩ 7 ⟨[7], 1, 7⟩ rfl,
   c6_offset_invariant.2.2.2.1 ⟨[3], 0, 9⟩ 3 ⟨[3], 1, 9⟩ rfl,
   c6_offset_invariant.2.2.2.2.1 ⟨[3, 4], 0, 9⟩ (3, 4) ⟨[3, 4], 2, 9⟩ rfl,
   c6_offset_invariant.2.2.2.2.2.1 ⟨[1, 2, 3, 4], 0, 9⟩ (1, 2, 3, 4)
     ⟨[1, 2, 3, 4], 4, 9⟩ rfl,
   c6_offset_invariant.2.2.2.2.2.2.1 ⟨[3, 4], 0, 8⟩ 0x30004 ⟨[3, 4], 2, 8⟩ rfl,
   c6_offset_invariant.2.2.2.2.2.2.2 ⟨[1, 2, 3, 4], 0, 8⟩ 0x0001000200030004
     ⟨[1, 2, 3, 4], 4, 8⟩ rfl⟩

/-- C8: an instruction word whose group byte or group-data byte has no
handler makes the dispatch loop return `BadOpcode` carrying that very
word and abort the run at that instruction: whatever follows (`rest`) is
never executed and the stack `s` is untouched. -/
theorem c8_bad_opcode_aborts (w : Nat) (rest s : List Nat)
    (h : handledWord w = false) :
    Engine.run (w :: rest) s = some (.fault (.BadOpcode w) s) := by
  unfold Engine.run
  simp only [List.length_cons]
  rw [Engine.runAux]
  rw [if_pos (by simp : 0 < (w :: rest).length)]
  simp only [List.getD_cons_zero]
  by_cases hg0 : groupOf w = bytecode.groups.SYSTEM
  · rw [if_pos hg0]
    have hh : ¬ (dataOf w = bytecode.sys.NOP ∨ dataOf w = bytecode.sys.PRINT_STACK ∨
        dataOf w = bytecode.sys.PRINT_U64 ∨ dataOf w = bytecode.sys.PRINT_I64 ∨
        dataOf w = bytecode.sys.PRINT_F32 ∨ dataOf w = bytecode.sys.PRINT_F64) := by
      unfold handledWord at h
      rw [if_pos hg0] at h
      simpa using h
    push_neg at hh
    obtain ⟨h1, h2, h3, h4, h5, h6⟩ := hh
    unfold Engine.op_system
    rw [if_neg h1, if_neg h2, if_neg h3, if_neg h4, if_neg h5, if_neg h6]
    rfl
  · rw [if_neg hg0]
    by_cases hg1 : groupOf w = bytecode.groups.STACK
    · rw [if_pos hg1]
      have hv : ¬ dataOf w < 16 := by
        unfold handledWord at h
        rw [if_neg hg0, if_pos hg1] at h
        simpa using h
      unfold Engine.op_stack
      simp only [bytecode.stack.CONST_0, bytecode.stack.CONST_1, bytecode.stack.CONST_2,
        bytecode.stack.CONST_3, bytecode.stack.CONST_4, bytecode.stack.CONST_8,
        bytecode.stack.CONST_16, bytecode.stack.CONST_32, bytecode.stack.CONST_64,
        bytecode.stack.CONST_128, bytecode.stack.CONST_N1, bytecode.stack.CONST_U16,
        bytecode.stack.CONST_U32, bytecode.stack.CONST_U64, bytecode.stack.CONST_I16,
        bytecode.stack.CONST_I32]
      rw [if_neg (show ¬ dataOf w = 0 by omega), if_neg (show ¬ dataOf w = 1 by omega),
        if_neg (show ¬ dataOf w = 2 by omega), if_neg (show ¬ dataOf w = 3 by omega),
        if_neg (show ¬ dataOf w = 4 by omega), if_neg (show ¬ dataOf w = 5 by omega),
        if_neg (show ¬ dataOf w = 6 by omega), if_neg (show ¬ dataOf w = 7 by omega),
        if_neg (show ¬ dataOf w = 8 by omega), if_neg (show ¬ dataOf w = 9 by omega),
        if_neg (show ¬ dataOf w = 10 by omega), if_neg (show ¬ dataOf w = 11 by omega),
        if_neg (show ¬ dataOf w = 12 by omega), if_neg (show ¬ dataOf w = 13 by omega),
        if_neg (show ¬ dataOf w = 14 by omega), if_neg (show ¬ dataOf w = 15 by omega)]
      rfl
    · rw [if_neg hg1]
      by_cases hg3 : groupOf w = bytecode.groups.MATH
      · rw [if_pos hg3]
        have hv : ¬ dataOf w < 8 := by
          unfold handledWord at h
          rw [if_neg hg0, if_neg hg1, if_pos hg3] at h
          simpa using h
        unfold Engine.op_math
        simp only [bytecode.math.ADD, bytecode.math.ADD_C, bytecode.math.SUB,
          bytecode.math.SUB_C, bytecode.math.MUL, bytecode.math.MUL_C,
          bytecode.math.DIV, bytecode.math.DIV_C]
        rw [if_neg (show ¬ dataOf w = 0 by omega), if_neg (show ¬ dataOf w = 1 by omega),
          if_neg (show ¬ dataOf w = 2 by omega), if_neg (show ¬ dataOf w = 3 by omega),
          if_neg (show ¬ dataOf w = 4 by omega), if_neg (show ¬ dataOf w = 5 by omega),
          if_neg (show ¬ dataOf w = 6 by omega), if_neg (show ¬ dataOf w = 7 by omega)]
        rfl
      · rw [if_neg hg3]

/-- Witness for C8: the unimplemented FPMATH group word `0x0400` aborts
a two-instruction program immediately, leaving the stack alone. -/
theorem c8_bad_opcode_aborts_witness :
    Engine.run [0x0400, 0x0300] [3] = some (.fault (.BadOpcode 0x0400) [3]) :=
  c8_bad_opcode_aborts 0x0400 [0x0300] [3] (by decide)
